import Mathlib

/-! Verification of the zkPull AVS operator bot (JavaScript sources under
`src/operator` and the monolithic bot in `src/unnamed/part_001`) against its
natural-language specification.  The JavaScript is shallowly embedded: pure
string processing (the regex-driven proof extraction of
`operator.validator.js`) becomes executable Lean functions on `List Char`;
the stateful task pipeline (`operator.service.js`) becomes explicit state
passing over a `Finset String` guard set together with an environment record
that fixes the outcome of each external (oracle / HTTP) call; fallible
JavaScript code that throws becomes `Except String`.
-/

namespace ZkPull

/-! Section: Character classes of the JavaScript regexes

`\s` is modelled by its ASCII fragment (the proof strings scanned here are
`JSON.stringify` output, which contains no exotic whitespace), `\w` is
`[A-Za-z0-9_]` and `\d` is `[0-9]`, exactly as in JavaScript. -/

def isJsSpace (c : Char) : Bool :=
  c == ' ' || c == '\t' || c == '\n' || c == '\r' || c == '\x0b' || c == '\x0c'

def isWordChar (c : Char) : Bool :=
  c.isAlphanum || c == '_'

/-- Consume the literal character sequence `e` at the head of `l`. -/
def expectLit : List Char → List Char → Option (List Char)
  | [], l => some l
  | _ :: _, [] => none
  | e :: es, c :: cs => if c == e then expectLit es cs else none

/-- Consume one expected character at the head of `l`. -/
def expectChar (e : Char) : List Char → Option (List Char)
  | [] => none
  | c :: cs => if c == e then some cs else none

/-- Match, at the current position, the JavaScript pattern
`"key"\s*:\s*"(X+)"` where `X` is the character class `good`.  This is the
common shape of `mergedRegex`, `loginRegex` and `idRegex` in
`operator.validator.js` (lines 154-156).  Greedy matching of `X+` followed by
a closing quote is equivalent to maximal munch because a shorter capture
would have to be followed by a further `X` character, never by the quote. -/
def matchKeyVal (key : List Char) (good : Char → Bool) (l : List Char) : Option String :=
  match expectLit ('"' :: key ++ ['"']) l with
  | none => none
  | some r1 =>
    match expectChar ':' (r1.dropWhile isJsSpace) with
    | none => none
    | some r2 =>
      match expectChar '"' (r2.dropWhile isJsSpace) with
      | none => none
      | some r3 =>
        let run := r3.takeWhile good
        if run.isEmpty then none
        else
          match expectChar '"' (r3.dropWhile good) with
          | none => none
          | some _ => some (String.mk run)

/-- First match of `m` over all start positions, scanning left to right:
the semantics of JavaScript `String.prototype.match` with a non-global
regex.  Every pattern used here needs at least one character, so the empty
final position never matches and is omitted. -/
def scanFirstP {α : Type} (m : List Char → Option α) : List Char → Option α
  | [] => none
  | c :: t =>
    match m (c :: t) with
    | some v => some v
    | none => scanFirstP m t

/-- Embedding of `prProofString.match(/"merged"\s*:\s*"(\w+)"/)`, returning
the first capture. -/
def extractMerged (s : String) : Option String :=
  scanFirstP (matchKeyVal "merged".toList isWordChar) s.toList

/-- Embedding of `.match(/"login"\s*:\s*"([^"]+)"/)`, returning the first
capture. -/
def extractLogin (s : String) : Option String :=
  scanFirstP (matchKeyVal "login".toList (fun c => c != '"')) s.toList

/-- Embedding of `.match(/"id"\s*:\s*"(\d+)"/)`, returning the first
capture. -/
def extractId (s : String) : Option String :=
  scanFirstP (matchKeyVal "id".toList Char.isDigit) s.toList

/-- Result record returned by `_verifyProofData`
(`operator.validator.js` lines 179-188). -/
structure VerifyResult where
  isMerged : Bool
  isValidUser : Bool
  isValidId : Bool
  githubUsername : String
  githubUserId : String
  userLogin : String
  userId : String
  isValid : Bool
deriving DecidableEq, Repr

/-- Embedding of `_verifyProofData` (`operator.validator.js` lines 153-189):
regex extraction of `merged`, `login`, `id` from the two serialized context
strings, then the boolean conjunction. -/
def verifyProofData (prProofString userProofString : String) : VerifyResult :=
  let prMergedMatch := extractMerged prProofString
  let prLoginMatch := extractLogin prProofString
  let prIdMatch := extractId prProofString
  let userLoginMatch := extractLogin userProofString
  let userIdMatch := extractId userProofString
  let isMerged := match prMergedMatch with
    | some v => v == "true"
    | none => false
  let isValidUser := match prLoginMatch, userLoginMatch with
    | some a, some b => a == b
    | _, _ => false
  let isValidId := match prIdMatch, userIdMatch with
    | some a, some b => a == b
    | _, _ => false
  { isMerged := isMerged
    isValidUser := isValidUser
    isValidId := isValidId
    githubUsername := prLoginMatch.getD "unknown"
    githubUserId := prIdMatch.getD "unknown"
    userLogin := userLoginMatch.getD "unknown"
    userId := userIdMatch.getD "unknown"
    isValid := isMerged && isValidUser && isValidId }

/-! Section: Context extraction (`_extractAndVerifyProof`)

The serialized proof payload is scanned with the global regex
`/"context":\s*"(\x7b.*?\x7d)"/g`.  The lazy body `.*?` is modelled by
`ctxClose`: at each position the engine first tries to close with a brace
immediately followed by a quote, and otherwise consumes one more character,
which must not be a line terminator since `.` does not match those. -/

def ctxClose : List Char → Option (List Char × List Char)
  | '\x7d' :: '"' :: rest => some ([], rest)
  | c :: rest =>
    if c == '\n' || c == '\r' then none
    else
      match ctxClose rest with
      | some (b, r) => some (c :: b, r)
      | none => none
  | [] => none

/-- Match the context pattern at the current position; on success return the
capture (including its braces) and the remainder of the input after the
closing quote, which is where a global regex resumes scanning. -/
def matchContextAt (l : List Char) : Option (String × List Char) :=
  match expectLit "\"context\"".toList l with
  | none => none
  | some r1 =>
    match expectChar ':' r1 with
    | none => none
    | some r2 =>
      match expectChar '"' (r2.dropWhile isJsSpace) with
      | none => none
      | some r3 =>
        match expectChar '\x7b' r3 with
        | none => none
        | some r4 =>
          match ctxClose r4 with
          | none => none
          | some (b, rest) => some (String.mk ('\x7b' :: (b ++ ['\x7d'])), rest)

/-- Fuelled scan implementing `matchAll`: successive non-overlapping matches,
resuming after each match.  Every step consumes at least one character, so
fuel equal to the input length is always sufficient. -/
def ctxScan : Nat → List Char → List String
  | 0, _ => []
  | _ + 1, [] => []
  | fuel + 1, c :: t =>
    match matchContextAt (c :: t) with
    | some (v, rest) => v :: ctxScan fuel rest
    | none => ctxScan fuel t

/-- All captures of the global context regex over a string, in order:
the embedding of `[...proofString.matchAll(contextRegex)]`
(`operator.validator.js` lines 121-122). -/
def ctxMatches (s : String) : List String :=
  ctxScan s.toList.length s.toList

/-! Section: JSON values

`JSON.parse` is a host builtin; it is taken as a parameter
`p : String → Option Json` throughout (`none` models a thrown
`SyntaxError`).  `JSON.stringify` on parsed values is embedded as `jstr`,
emitting the compact form with standard string escaping; numbers are kept as
their raw lexemes, which `JSON.stringify` reproduces for values round-tripped
through `JSON.parse` in the inputs relevant here. -/

inductive Json where
  | null
  | bool (b : Bool)
  | num (raw : String)
  | str (s : String)
  | arr (elems : List Json)
  | obj (fields : List (String × Json))
deriving Repr

def hexDigit (n : Nat) : Char :=
  if n < 10 then Char.ofNat (48 + n) else Char.ofNat (87 + n)

def escapeChar (c : Char) : List Char :=
  if c == '"' then ['\\', '"']
  else if c == '\\' then ['\\', '\\']
  else if c == '\n' then ['\\', 'n']
  else if c == '\r' then ['\\', 'r']
  else if c == '\t' then ['\\', 't']
  else if c == '\x08' then ['\\', 'b']
  else if c == '\x0c' then ['\\', 'f']
  else if c.toNat < 32 then ['\\', 'u', '0', '0', hexDigit (c.toNat / 16), hexDigit (c.toNat % 16)]
  else [c]

def quoteStr (s : String) : String :=
  String.mk ('"' :: s.toList.foldr (fun c acc => escapeChar c ++ acc) ['"'])

mutual

def jstr : Json → String
  | .null => "null"
  | .bool true => "true"
  | .bool false => "false"
  | .num raw => raw
  | .str s => quoteStr s
  | .arr es => "[" ++ jstrElems es ++ "]"
  | .obj fs => "\x7b" ++ jstrFields fs ++ "\x7d"

def jstrElems : List Json → String
  | [] => ""
  | [e] => jstr e
  | e :: es => jstr e ++ "," ++ jstrElems es

def jstrFields : List (String × Json) → String
  | [] => ""
  | [(k, v)] => quoteStr k ++ ":" ++ jstr v
  | (k, v) :: fs => quoteStr k ++ ":" ++ jstr v ++ "," ++ jstrFields fs

end

/-- Embedding of `jsonString.replace(/\\"/g, QUOTE)`: left-to-right
replacement of every backslash-quote pair by a quote. -/
def unescQuotes : List Char → List Char
  | '\\' :: '"' :: rest => '"' :: unescQuotes rest
  | c :: rest => c :: unescQuotes rest
  | [] => []

def unescapeQuotedStr (s : String) : String :=
  String.mk (unescQuotes s.toList)

/-- Embedding of `_parseJSONSafely` (`operator.validator.js` lines 140-148):
un-escape the fragment, try `JSON.parse`, and on failure return the empty
object instead of throwing. -/
def parseJSONSafely (p : String → Option Json) (s : String) : Json :=
  match p (unescapeQuotedStr s) with
  | some j => j
  | none => Json.obj []

/-- Embedding of `_extractAndVerifyProof` (`operator.validator.js` lines
118-135).  The function receives the serialization
`JSON.stringify(\x7b prProofData, userProofData \x7d)` of the payload;
serialization of the opaque foreign payload objects is a host operation, so
the serialized string itself is the input of the model. -/
def extractAndVerifyProof (p : String → Option Json) (proofString : String) :
    Except String VerifyResult :=
  let ms := ctxMatches proofString
  if h : ms.length < 2 then
    .error "Could not extract context from proof data"
  else
    let prProofDataContext := parseJSONSafely p (ms.get ⟨0, by omega⟩)
    let userProofDataContext := parseJSONSafely p (ms.get ⟨1, by omega⟩)
    .ok (verifyProofData (jstr prProofDataContext) (jstr userProofDataContext))

/-! Section: PR link validation (`_validatePRLink`)

Embedding of `prLink.match(/github\.com\/([^\/]+)\/([^\/]+)\/pull\/(\d+)/)`.
Maximal munch for `[^\/]+` is equivalent to the backtracking semantics: any
shorter capture is followed by a non-slash character, so the mandatory slash
after the group can never match there. -/

def notSlash (c : Char) : Bool := c != '/'

def matchPRLinkAt (l : List Char) : Option (String × String × String) :=
  match expectLit "github.com/".toList l with
  | none => none
  | some r1 =>
    let owner := r1.takeWhile notSlash
    if owner.isEmpty then none
    else
      match expectChar '/' (r1.dropWhile notSlash) with
      | none => none
      | some r2 =>
        let repo := r2.takeWhile notSlash
        if repo.isEmpty then none
        else
          match expectLit "/pull/".toList (r2.dropWhile notSlash) with
          | none => none
          | some r3 =>
            let num := r3.takeWhile Char.isDigit
            if num.isEmpty then none
            else some (String.mk owner, String.mk repo, String.mk num)

def validatePRLink (prLink : String) : Option (String × String × String) :=
  scanFirstP matchPRLinkAt prLink.toList

/-! Section: zkTLS API response and `verifyPR` -/

/-- Shape of the proof-service response used by `_callZKTLSAPI`.  The two
proof subjects are opaque foreign objects; the model keeps whether each is
present and truthy, plus the host serialization
`JSON.stringify(\x7b prProofData, userProofData \x7d)` that
`_extractAndVerifyProof` scans. -/
structure ApiResp where
  prProofData : Option String
  userProofData : Option String
  serialized : String

/-- JavaScript falsiness of the destructured field: absent or empty. -/
def isFalsyStr : Option String → Bool
  | none => true
  | some s => s.isEmpty

structure VerifyPROutcome where
  isValid : Bool
  result : VerifyResult
deriving DecidableEq, Repr

/-- Embedding of `verifyPR` (`operator.validator.js` lines 14-70).  The
argument `api` is the outcome of the axios call: `Except.error` models a
transport or timeout failure.  Every failure is rethrown wrapped in the
`zkTLS verification failed:` message; there is no call to
`fallbackVerification` anywhere on this path. -/
def verifyPR (p : String → Option Json) (prLink : String)
    (api : Except String ApiResp) : Except String VerifyPROutcome :=
  match validatePRLink prLink with
  | none => .error ("zkTLS verification failed: " ++ "Invalid GitHub PR link")
  | some _ =>
    match api with
    | .error e => .error ("zkTLS verification failed: " ++ e)
    | .ok resp =>
      if isFalsyStr resp.prProofData || isFalsyStr resp.userProofData then
        .error ("zkTLS verification failed: " ++ "Invalid response format from zkTLS API")
      else
        match extractAndVerifyProof p resp.serialized with
        | .error e => .error ("zkTLS verification failed: " ++ e)
        | .ok r => .ok { isValid := r.isValid, result := r }

/-! Section: Data model (`operator.constants.js`) -/

structure Task where
  taskId : Nat
  issueId : Nat
  claimIndex : Nat
  prLink : String
  developer : String
  createdAt : Nat
  status : Nat
  assignedOperator : String
  zkProof : String
deriving DecidableEq, Repr

structure ClaimRow where
  prLink : String
  isMerged : Bool
  developer : String
  isValidated : Bool
  timestamp : Nat
  accessToken : String
deriving DecidableEq, Repr

def TASK_STATUS_PENDING : Nat := 0
def TASK_STATUS_ASSIGNED : Nat := 1
def TASK_STATUS_VALIDATED : Nat := 2

def TIMEOUT_TASK_DETAILS : Nat := 10000

def ERROR_CODES_TASK_ALREADY_ASSIGNED : List String :=
  ["TaskAlreadyAssigned", "0x48780f5a", "0x27e1f1e5"]

/-! Section: Address comparison (`isAssignedToMe`, `_handleTaskAssigned`) -/

/-- ASCII fragment of `String.prototype.toLowerCase`, which is total on the
hexadecimal addresses compared here. -/
def jsLowerChar (c : Char) : Char :=
  if 'A' ≤ c ∧ c ≤ 'Z' then Char.ofNat (c.toNat + 32) else c

def jsToLower (s : String) : String :=
  String.mk (s.toList.map jsLowerChar)

/-- Embedding of `isAssignedToMe` (`operator.service.js` lines 118-122). -/
def isAssignedToMe (operatorAddress : String) (task : Task) : Bool :=
  jsToLower task.assignedOperator == jsToLower operatorAddress

/-- Comparator of the `TaskAssigned` event handler
(`operator.controller.js` line 131). -/
def taskAssignedMatches (operator walletAddress : String) : Bool :=
  jsToLower operator == jsToLower walletAddress

/-! Section: Substring search (`error.message.includes(code)`) -/

def leadsWith : List Char → List Char → Bool
  | [], _ => true
  | _ :: _, [] => false
  | n :: ns, h :: hs => n == h && leadsWith ns hs

def listIncludes (needle : List Char) : List Char → Bool
  | [] => needle.isEmpty
  | l@(_ :: t) => leadsWith needle l || listIncludes needle t

def strIncludes (hay needle : String) : Bool :=
  listIncludes needle.toList hay.toList

/-- Conflict classification of `_handlePickTaskError`
(`operator.service.js` lines 187-189). -/
def isConflictMsg (msg : String) : Bool :=
  ERROR_CODES_TASK_ALREADY_ASSIGNED.any (fun code => strIncludes msg code)

/-! Section: Task acquisition (`pickUpTask` and its handlers) -/

structure PickResult where
  picked : Bool
  shouldProcess : Bool
deriving DecidableEq, Repr

/-- Embedding of `_handleNonPendingTask` (`operator.service.js` lines
170-181).  On the JavaScript side `\x7b picked: true \x7d` omits
`shouldProcess`; the omitted field reads back as the falsy `undefined`,
modelled by `false`. -/
def handleNonPendingTask (operatorAddress : String) (task : Task) : PickResult :=
  if isAssignedToMe operatorAddress task && (task.status == TASK_STATUS_ASSIGNED) then
    { picked := false, shouldProcess := true }
  else
    { picked := false, shouldProcess := false }

/-- Embedding of `_handlePickTaskError` (`operator.service.js` lines
186-212): classify the write failure by its message; on a conflict, re-read
the task (outcome `reRead`) and resolve inline, catching even a failing
re-read; on anything else rethrow the original error. -/
def handlePickTaskError (operatorAddress : String) (reRead : Except String Task)
    (errMsg : String) : Except String PickResult :=
  if isConflictMsg errMsg then
    match reRead with
    | .ok t =>
      if isAssignedToMe operatorAddress t then
        .ok { picked := false, shouldProcess := true }
      else
        .ok { picked := false, shouldProcess := false }
    | .error _ => .ok { picked := false, shouldProcess := false }
  else
    .error errMsg

/-- Oracle actions issued by the service layer, recorded in order. -/
inductive Act where
  | readTask
  | readClaim
  | pickWrite
  | submitWrite (taskId : Nat) (isValid : Bool)
deriving DecidableEq, Repr

/-- Environment fixing the outcome of each external call one `pickUpTask`
attempt can make. -/
structure PickEnv where
  task : Except String Task
  pickOutcome : Except String Unit
  reRead : Except String Task

/-- Embedding of `pickUpTask` (`operator.service.js` lines 32-48): read the
task; a non-Pending task is delegated to `_handleNonPendingTask` without any
acquisition write; a Pending task gets one `pickTask` write whose failure is
delegated to `_handlePickTaskError`. -/
def pickUpTask (operatorAddress : String) (env : PickEnv) :
    Except String PickResult × List Act :=
  match env.task with
  | .error e => (.error e, [.readTask])
  | .ok t =>
    if t.status != TASK_STATUS_PENDING then
      (.ok (handleNonPendingTask operatorAddress t), [.readTask])
    else
      match env.pickOutcome with
      | .ok _ => (.ok { picked := true, shouldProcess := false }, [.readTask, .pickWrite])
      | .error msg =>
        (handlePickTaskError operatorAddress env.reRead msg, [.readTask, .pickWrite, .readTask])

/-! Section: Processing guard and `processTask` -/

/-- Atomic enter of the `processingTasks` guard: the JavaScript
`has` / `add` pair runs with no interleaving point between the two calls. -/
def tryEnter (s : Finset String) (id : String) : Bool × Finset String :=
  if id ∈ s then (false, s) else (true, insert id s)

/-- Release of the guard, performed in the `finally` block. -/
def exitGuard (s : Finset String) (id : String) : Finset String :=
  s.erase id

/-- Number of successful entries among `n` back-to-back enter attempts for
the same id with no intervening release: the window in which `n` processing
attempts are concurrent. -/
def enterRun (s : Finset String) (id : String) : Nat → Nat
  | 0 => 0
  | n + 1 =>
    let r := tryEnter s id
    (if r.1 then 1 else 0) + enterRun r.2 id n

inductive PTOutcome where
  | skipped
  | errored (msg : String)
  | completed
deriving DecidableEq, Repr

/-- Environment fixing the outcome of each external call one `processTask`
attempt can make. -/
structure PTEnv where
  parse : String → Option Json
  task : Except String Task
  claim : Except String ClaimRow
  api : Except String ApiResp
  submitOk : Except String Unit

/-- Embedding of `processTask` (`operator.service.js` lines 53-94): guard
check and insert, task read, claim read for the access token, `verifyPR`,
submission, with the guard released in `finally` on every exit path and
errors rethrown after logging. -/
def processTask (s : Finset String) (env : PTEnv) (taskId : Nat) :
    PTOutcome × Finset String × List Act :=
  let idStr := Nat.repr taskId
  if idStr ∈ s then (.skipped, s, [])
  else
    let s1 := insert idStr s
    match env.task with
    | .error e => (.errored e, s1.erase idStr, [.readTask])
    | .ok task =>
      match env.claim with
      | .error e => (.errored e, s1.erase idStr, [.readTask, .readClaim])
      | .ok _ =>
        match verifyPR env.parse task.prLink env.api with
        | .error e => (.errored e, s1.erase idStr, [.readTask, .readClaim])
        | .ok v =>
          match env.submitOk with
          | .error e =>
            (.errored e, s1.erase idStr, [.readTask, .readClaim, .submitWrite taskId v.isValid])
          | .ok _ =>
            (.completed, s1.erase idStr, [.readTask, .readClaim, .submitWrite taskId v.isValid])

/-! Section: Bounded task read (`getTask` in `operator.repository.js`)

The repository races the contract read against a rejection timer of
`TIMEOUTS.TASK_DETAILS` milliseconds.  The read outcome is modelled by
`none` when the underlying call never settles, or `some (t, v)` when it
settles with `v` after `t` milliseconds; the earlier settler wins the race,
with the strict comparison giving the timer the tie, the only case
JavaScript leaves to scheduling order. -/

def getTask (read : Option (Nat × Task)) : Except String Task :=
  match read with
  | none => .error "Timeout getting task details"
  | some (t, v) =>
    if t < TIMEOUT_TASK_DETAILS then .ok v else .error "Timeout getting task details"

/-- Whether the modelled read settles strictly within the deadline. -/
def resolvesWithin (read : Option (Nat × Task)) : Bool :=
  match read with
  | none => false
  | some (t, _) => t < TIMEOUT_TASK_DETAILS

/-! Section: Concrete values used by the theorems and their witnesses -/

/-- Whether an action trace contains a `submitValidation` write. -/
def hasSubmit (acts : List Act) : Bool :=
  acts.any (fun a => match a with
    | Act.submitWrite _ _ => true
    | _ => false)

def prCtxGood : String := "\x7b\"merged\":\"true\",\"login\":\"alice\",\"id\":\"7\"\x7d"

def prCtxNotMerged : String := "\x7b\"merged\":\"false\",\"login\":\"alice\",\"id\":\"7\"\x7d"

def prCtxOtherLogin : String := "\x7b\"merged\":\"true\",\"login\":\"bob\",\"id\":\"7\"\x7d"

def userCtxGood : String := "\x7b\"login\":\"alice\",\"id\":\"7\"\x7d"

def userCtxOtherId : String := "\x7b\"login\":\"alice\",\"id\":\"9\"\x7d"

def prCtxTwoIds : String := "\x7b\"id\":\"1\",\"owner\":\x7b\"id\":\"2\"\x7d\x7d"

def userCtxIdOne : String := "\x7b\"id\":\"1\"\x7d"

def userCtxIdTwo : String := "\x7b\"id\":\"2\"\x7d"

def prCtxTwoLogins : String := "\x7b\"login\":\"alpha\",\"login\":\"beta\"\x7d"

def task0 : Task :=
  { taskId := 1, issueId := 1, claimIndex := 0,
    prLink := "https://github.com/zkorg/zkrepo/pull/12",
    developer := "0xdev", createdAt := 0, status := 1,
    assignedOperator := "0xAbCd", zkProof := "" }

def claim0 : ClaimRow :=
  { prLink := "https://github.com/zkorg/zkrepo/pull/12", isMerged := true,
    developer := "0xdev", isValidated := false, timestamp := 0, accessToken := "tok" }

/-- Environment in which the proof-service call fails with a transport
error. -/
def env0 : PTEnv :=
  { parse := fun _ => none, task := .ok task0, claim := .ok claim0,
    api := .error "boom", submitOk := .ok () }

def taskDone : Task :=
  { task0 with status := 2, assignedOperator := "0xother" }

def pickEnvDone : PickEnv :=
  { task := .ok taskDone, pickOutcome := .ok (), reRead := .error "unused" }

def taskMine : Task :=
  { task0 with status := 1, assignedOperator := "0xABCD" }

/-! Section: Helper lemmas -/

/-- Characterization of the first-match scan: it returns `v` exactly when
some position matches with capture `v` and every earlier position fails. -/
theorem scanFirstP_eq_some_iff {α : Type} (m : List Char → Option α) :
    ∀ (l : List Char) (v : α),
      scanFirstP m l = some v ↔
        ∃ i, i < l.length ∧ m (l.drop i) = some v ∧ ∀ j, j < i → m (l.drop j) = none := by
  intro l
  induction l with
  | nil => intro v; simp [scanFirstP]
  | cons c t ih =>
    intro v
    cases h : m (c :: t) with
    | some w =>
      simp only [scanFirstP, h]
      constructor
      · intro h'
        exact ⟨0, by simp, by rw [List.drop_zero, h]; exact h', by intro j hj; omega⟩
      · rintro ⟨i, hi, hm, hj⟩
        cases i with
        | zero => rw [List.drop_zero, h] at hm; exact hm
        | succ k =>
          have h0 := hj 0 (Nat.succ_pos k)
          rw [List.drop_zero, h] at h0
          cases h0
    | none =>
      simp only [scanFirstP, h]
      rw [ih]
      constructor
      · rintro ⟨i, hi, hm, hj⟩
        refine ⟨i + 1, by simp [Nat.succ_lt_succ hi], ?_, ?_⟩
        · rw [List.drop_succ_cons]; exact hm
        · intro j hj'
          cases j with
          | zero => rw [List.drop_zero]; exact h
          | succ k => rw [List.drop_succ_cons]; exact hj k (by omega)
      · rintro ⟨i, hi, hm, hj⟩
        cases i with
        | zero => rw [List.drop_zero, h] at hm; cases hm
        | succ k =>
          refine ⟨k, by simpa using Nat.lt_of_succ_lt_succ hi, ?_, ?_⟩
          · rw [List.drop_succ_cons] at hm; exact hm
          · intro j hj'
            have := hj (j + 1) (by omega)
            rw [List.drop_succ_cons] at this
            exact this

theorem leadsWith_append_self (n b : List Char) : leadsWith n (n ++ b) = true := by
  induction n with
  | nil => simp [leadsWith]
  | cons c cs ih => simp [leadsWith, ih]

theorem listIncludes_append_self (n a b : List Char) :
    listIncludes n (a ++ (n ++ b)) = true := by
  induction a with
  | nil =>
    rw [List.nil_append]
    cases n with
    | nil =>
      cases b with
      | nil => simp [listIncludes]
      | cons x xs => simp [listIncludes, leadsWith]
    | cons x xs =>
      have hlw := leadsWith_append_self (x :: xs) b
      rw [List.cons_append] at hlw
      simp [listIncludes, hlw]
  | cons x xs ih => simp [listIncludes, ih]

/-- Substring search finds a needle embedded anywhere in the haystack. -/
theorem strIncludes_of_embedded (pre code post : String) :
    strIncludes (pre ++ code ++ post) code = true := by
  unfold strIncludes
  have h : (pre ++ code ++ post).toList = pre.toList ++ (code.toList ++ post.toList) := by
    simp [String.toList]
  rw [h]
  exact listIncludes_append_self code.toList pre.toList post.toList

theorem enterRun_of_mem (s : Finset String) (id : String) (h : id ∈ s) :
    ∀ n, enterRun s id n = 0 := by
  intro n
  induction n with
  | zero => rfl
  | succ k ih => simp [enterRun, tryEnter, h, ih]

theorem enterRun_succ_not_mem (s : Finset String) (id : String) (h : id ∉ s) (n : Nat) :
    enterRun s id (n + 1) = 1 := by
  simp [enterRun, tryEnter, h,
    enterRun_of_mem (insert id s) id (Finset.mem_insert_self id s)]

theorem expectLit_some_length : ∀ (e l r : List Char),
    expectLit e l = some r → r.length + e.length = l.length := by
  intro e
  induction e with
  | nil =>
    intro l r h
    simp only [expectLit] at h
    injection h with h'
    subst h'
    simp
  | cons x xs ih =>
    intro l r h
    cases l with
    | nil => simp [expectLit] at h
    | cons c cs =>
      simp only [expectLit] at h
      by_cases hc : (c == x) = true
      · rw [if_pos hc] at h
        have := ih cs r h
        simp only [List.length_cons]
        omega
      · rw [if_neg hc] at h
        cases h

theorem expectChar_some_length (e : Char) (l r : List Char)
    (h : expectChar e l = some r) : r.length + 1 = l.length := by
  cases l with
  | nil => simp [expectChar] at h
  | cons c cs =>
    simp only [expectChar] at h
    by_cases hc : (c == e) = true
    · rw [if_pos hc] at h
      injection h with h'
      subst h'
      simp
    · rw [if_neg hc] at h
      cases h

theorem dropWhile_length_le (p : Char → Bool) (l : List Char) :
    (l.dropWhile p).length ≤ l.length := by
  induction l with
  | nil => simp
  | cons c t ih =>
    by_cases h : p c = true
    · rw [List.dropWhile_cons_of_pos h]
      simp only [List.length_cons]
      omega
    · rw [List.dropWhile_cons_of_neg h]

theorem ctxClose_some_length : ∀ (l b r : List Char),
    ctxClose l = some (b, r) → r.length < l.length := by
  intro l
  induction l with
  | nil => intro b r h; simp [ctxClose] at h
  | cons c t ih =>
    intro b r h
    unfold ctxClose at h
    split at h
    · rename_i rest heq
      injection h with h'
      have hr : rest = r := congrArg Prod.snd h'
      injection heq with hc ht
      subst hr
      subst ht
      simp
      omega
    · rename_i c2 rest hexc heq
      injection heq with hc ht
      subst hc
      subst ht
      split at h
      · cases h
      · split at h
        · rename_i b0 r0 heq2
          injection h with h'
          have hr : r0 = r := congrArg Prod.snd h'
          subst hr
          have := ih b0 r0 heq2
          simp only [List.length_cons]
          omega
        · cases h
    · cases h

/-- Every successful context match consumes at least one input character,
so the fuel choice in `ctxMatches` never truncates the scan. -/
theorem matchContextAt_rest_lt (l : List Char) (v : String) (rest : List Char)
    (h : matchContextAt l = some (v, rest)) : rest.length < l.length := by
  unfold matchContextAt at h
  split at h
  · cases h
  · rename_i r1 heq1
    split at h
    · cases h
    · rename_i r2 heq2
      split at h
      · cases h
      · rename_i r3 heq3
        split at h
        · cases h
        · rename_i r4 heq4
          split at h
          · cases h
          · rename_i b0 rest0 heq5
            injection h with h'
            have hr : rest0 = rest := congrArg Prod.snd h'
            subst hr
            have h1 := expectLit_some_length _ _ _ heq1
            have h2 := expectChar_some_length _ _ _ heq2
            have h3 := expectChar_some_length _ _ _ heq3
            have h4 := expectChar_some_length _ _ _ heq4
            have h5 := ctxClose_some_length _ _ _ heq5
            have h6 := dropWhile_length_le isJsSpace r2
            omega

/-- The fuelled `matchAll` scan is independent of the fuel once the fuel
covers the input length: the embedding of the global regex scan is
well-defined. -/
theorem ctxScan_fuel_irrelevant : ∀ (f1 f2 : Nat) (l : List Char),
    l.length ≤ f1 → l.length ≤ f2 → ctxScan f1 l = ctxScan f2 l := by
  intro f1
  induction f1 with
  | zero =>
    intro f2 l h1 h2
    have hl : l = [] := List.eq_nil_of_length_eq_zero (Nat.le_zero.mp h1)
    subst hl
    cases f2 <;> rfl
  | succ a ih =>
    intro f2 l h1 h2
    cases l with
    | nil => cases f2 <;> rfl
    | cons c t =>
      cases f2 with
      | zero => simp at h2
      | succ b =>
        simp only [ctxScan]
        cases hm : matchContextAt (c :: t) with
        | none =>
          exact ih b t (by simp at h1; omega) (by simp at h2; omega)
        | some vr =>
          obtain ⟨v, rest⟩ := vr
          have hlt := matchContextAt_rest_lt (c :: t) v rest hm
          simp only [List.length_cons] at hlt h1 h2
          exact congrArg (v :: ·) (ih b rest (by omega) (by omega))

theorem ctxMatches_fuel_canonical (s : String) (f : Nat) (hf : s.toList.length ≤ f) :
    ctxScan f s.toList = ctxMatches s :=
  ctxScan_fuel_irrelevant f s.toList.length s.toList hf le_rfl

/-! Section: Claim theorems -/

/-- C1: the verdict of `_verifyProofData` satisfies: `isMerged` holds exactly
when the PR context yields a quoted `merged` capture equal to the literal
string true (false when absent or quoted differently); `isValidUser` holds
exactly when both contexts yield a quoted `login` capture and the two are
equal; `isValidId` holds exactly when both contexts yield a quoted numeric
`id` capture and the two are equal; and `isValid` is the conjunction of the
three.  A context is read through the first regex match, the extraction the
code performs.  The concrete spec scenario (merged true, login alice, id 7
on both sides) is valid, and flipping the merged value, a login, or an id
flips `isValid` through exactly that conjunct. -/
theorem verifyProofData_verdict :
    (∀ pr user : String,
      ((verifyProofData pr user).isMerged = true ↔ extractMerged pr = some "true") ∧
      ((verifyProofData pr user).isValidUser = true ↔
        ∃ v, extractLogin pr = some v ∧ extractLogin user = some v) ∧
      ((verifyProofData pr user).isValidId = true ↔
        ∃ v, extractId pr = some v ∧ extractId user = some v) ∧
      (verifyProofData pr user).isValid =
        ((verifyProofData pr user).isMerged && (verifyProofData pr user).isValidUser &&
          (verifyProofData pr user).isValidId)) ∧
    (verifyProofData prCtxGood userCtxGood).isValid = true ∧
    verifyProofData prCtxNotMerged userCtxGood =
      { isMerged := false, isValidUser := true, isValidId := true,
        githubUsername := "alice", githubUserId := "7", userLogin := "alice",
        userId := "7", isValid := false } ∧
    verifyProofData prCtxOtherLogin userCtxGood =
      { isMerged := true, isValidUser := false, isValidId := true,
        githubUsername := "bob", githubUserId := "7", userLogin := "alice",
        userId := "7", isValid := false } ∧
    verifyProofData prCtxGood userCtxOtherId =
      { isMerged := true, isValidUser := true, isValidId := false,
        githubUsername := "alice", githubUserId := "7", userLogin := "alice",
        userId := "9", isValid := false } := by
  refine ⟨?_, by decide, by decide, by decide, by decide⟩
  intro pr user
  refine ⟨?_, ?_, ?_, rfl⟩
  · cases h : extractMerged pr <;> simp [verifyProofData, h]
  · cases h1 : extractLogin pr <;> cases h2 : extractLogin user <;>
      simp only [verifyProofData, h1, h2] <;> simp
    case some.some a b => exact eq_comm
  · cases h1 : extractId pr <;> cases h2 : extractId user <;>
      simp only [verifyProofData, h1, h2] <;> simp
    case some.some a b => exact eq_comm

/-- C9: each of the three extraction patterns is read through its first
occurrence only.  The general conjuncts characterize the extractors as
returning the capture of the earliest matching position, every earlier
position failing; the concrete conjuncts show a context carrying two
`login` and two `id` fields, where every occurrence after the first is
ignored by the decision, so the compared value need not belong to the
intended entity. -/
theorem verifyProofData_first_occurrence_only :
    (∀ (s : String) (v : String), extractMerged s = some v ↔
      ∃ i, i < s.toList.length ∧
        matchKeyVal "merged".toList isWordChar (s.toList.drop i) = some v ∧
        ∀ j, j < i → matchKeyVal "merged".toList isWordChar (s.toList.drop j) = none) ∧
    (∀ (s : String) (v : String), extractLogin s = some v ↔
      ∃ i, i < s.toList.length ∧
        matchKeyVal "login".toList (fun c => c != '"') (s.toList.drop i) = some v ∧
        ∀ j, j < i → matchKeyVal "login".toList (fun c => c != '"') (s.toList.drop j) = none) ∧
    (∀ (s : String) (v : String), extractId s = some v ↔
      ∃ i, i < s.toList.length ∧
        matchKeyVal "id".toList Char.isDigit (s.toList.drop i) = some v ∧
        ∀ j, j < i → matchKeyVal "id".toList Char.isDigit (s.toList.drop j) = none) ∧
    extractLogin prCtxTwoLogins = some "alpha" ∧
    extractId prCtxTwoIds = some "1" ∧
    (verifyProofData prCtxTwoIds userCtxIdOne).isValidId = true ∧
    (verifyProofData prCtxTwoIds userCtxIdTwo).isValidId = false := by
  refine ⟨?_, ?_, ?_, by decide, by decide, by decide, by decide⟩ <;>
    exact fun s v => scanFirstP_eq_some_iff _ s.toList v

/-- C7: a context fragment whose un-escaped text fails to parse makes
`_parseJSONSafely` return the empty record instead of throwing; the
serialized empty record carries no `merged`, `login` or `id` match, so
every fact derived from that fragment is false, while the overall
extraction still completes with a verdict whenever two context fragments
are present. -/
theorem parseJSONSafely_tolerant_degradation (p : String → Option Json) (frag : String)
    (h : p (unescapeQuotedStr frag) = none) :
    parseJSONSafely p frag = Json.obj [] ∧
    jstr (Json.obj []) = "\x7b\x7d" ∧
    (∀ user, (verifyProofData (jstr (Json.obj [])) user).isMerged = false ∧
      (verifyProofData (jstr (Json.obj [])) user).isValidUser = false ∧
      (verifyProofData (jstr (Json.obj [])) user).isValidId = false ∧
      (verifyProofData (jstr (Json.obj [])) user).isValid = false) ∧
    (∀ pr, (verifyProofData pr (jstr (Json.obj []))).isValidUser = false ∧
      (verifyProofData pr (jstr (Json.obj []))).isValidId = false) ∧
    (∀ s, 2 ≤ (ctxMatches s).length → ∃ r, extractAndVerifyProof p s = Except.ok r) := by
  have hobj : jstr (Json.obj []) = "\x7b\x7d" := rfl
  refine ⟨by simp [parseJSONSafely, h], hobj, ?_, ?_, ?_⟩
  · intro user
    rw [hobj]
    have hm : extractMerged "\x7b\x7d" = none := rfl
    have hl : extractLogin "\x7b\x7d" = none := rfl
    have hi : extractId "\x7b\x7d" = none := rfl
    cases hl2 : extractLogin user <;> cases hi2 : extractId user <;>
      simp [verifyProofData, hm, hl, hi, hl2, hi2]
  · intro pr
    rw [hobj]
    have hl : extractLogin "\x7b\x7d" = none := rfl
    have hi : extractId "\x7b\x7d" = none := rfl
    cases hl2 : extractLogin pr <;> cases hi2 : extractId pr <;>
      simp [verifyProofData, hl, hi, hl2, hi2]
  · intro s hs
    cases hr : extractAndVerifyProof p s with
    | ok r => exact ⟨r, rfl⟩
    | error e =>
      exfalso
      simp only [extractAndVerifyProof] at hr
      rw [dif_neg (by omega)] at hr
      cases hr

/-- C7 witness: a parser rejecting every input on a non-JSON fragment. -/
theorem parseJSONSafely_tolerant_degradation_witness :
    parseJSONSafely (fun _ => none) "not json" = Json.obj [] :=
  (parseJSONSafely_tolerant_degradation (fun _ => none) "not json" rfl).1

/-- C4: a serialized payload with fewer than two context matches makes
`_extractAndVerifyProof` throw the extraction error, so such a payload never
produces a verdict, in particular never one with `isValid` true, and
`verifyPR` on a response carrying that serialization never returns a
result. -/
theorem extractAndVerifyProof_requires_two_contexts (p : String → Option Json) (s : String)
    (h : (ctxMatches s).length < 2) :
    extractAndVerifyProof p s = Except.error "Could not extract context from proof data" ∧
    (∀ r, extractAndVerifyProof p s = Except.ok r → False) ∧
    (∀ prLink b1 b2 out,
      verifyPR p prLink (Except.ok { prProofData := b1, userProofData := b2, serialized := s }) =
        Except.ok out → False) := by
  have herr : extractAndVerifyProof p s =
      Except.error "Could not extract context from proof data" := by
    simp only [extractAndVerifyProof]
    rw [dif_pos h]
  refine ⟨herr, ?_, ?_⟩
  · intro r hr
    rw [herr] at hr
    cases hr
  · intro prLink b1 b2 out hout
    simp only [verifyPR] at hout
    cases hv : validatePRLink prLink with
    | none => rw [hv] at hout; cases hout
    | some triple =>
      rw [hv] at hout
      by_cases hf : (isFalsyStr b1 || isFalsyStr b2) = true
      · simp only [hf, if_true] at hout
        cases hout
      · simp only [Bool.not_eq_true] at hf
        simp only [hf, Bool.false_eq_true, if_false] at hout
        rw [herr] at hout
        cases hout

/-- C4 witness: a serialization with no context fragment at all. -/
theorem extractAndVerifyProof_requires_two_contexts_witness :
    extractAndVerifyProof (fun _ => none) "no context here" =
      Except.error "Could not extract context from proof data" :=
  (extractAndVerifyProof_requires_two_contexts (fun _ => none) "no context here" (by decide)).1

/-- Helper: when the guard does not hold the id, `processTask` restores the
guard set on every exit path, is never a skip, and always issues the task
read. -/
theorem processTask_not_mem (s : Finset String) (env : PTEnv) (taskId : Nat)
    (h : Nat.repr taskId ∉ s) :
    (processTask s env taskId).2.1 = s ∧
    (processTask s env taskId).1 ≠ PTOutcome.skipped ∧
    Act.readTask ∈ (processTask s env taskId).2.2 := by
  have he : (insert (Nat.repr taskId) s).erase (Nat.repr taskId) = s :=
    Finset.erase_insert h
  cases htk : env.task with
  | error e => simp [processTask, if_neg h, htk, he]
  | ok t =>
    cases hcl : env.claim with
    | error e => simp [processTask, if_neg h, htk, hcl, he]
    | ok c =>
      cases hv : verifyPR env.parse t.prLink env.api with
      | error e => simp [processTask, if_neg h, htk, hcl, hv, he]
      | ok v =>
        cases hsub : env.submitOk with
        | error e => simp [processTask, if_neg h, htk, hcl, hv, hsub, he]
        | ok u => simp [processTask, if_neg h, htk, hcl, hv, hsub, he]

/-- C2: every verification failure is an error, never a verdict: an invalid
PR link, a transport failure of the proof-service call, a response whose
proof subjects are missing or falsy, and an extraction failure each make
`verifyPR` return the wrapped error; and whenever `verifyPR` fails, the
matching `processTask` attempt issues no submission write and does not
complete, so no error path produces an authoritative result, let alone one
with `isValid` true. -/
theorem verifyPR_fails_closed :
    (∀ p prLink api, validatePRLink prLink = none →
      verifyPR p prLink api =
        Except.error ("zkTLS verification failed: " ++ "Invalid GitHub PR link")) ∧
    (∀ p prLink e, validatePRLink prLink ≠ none →
      verifyPR p prLink (Except.error e) =
        Except.error ("zkTLS verification failed: " ++ e)) ∧
    (∀ p prLink resp, validatePRLink prLink ≠ none →
      (isFalsyStr resp.prProofData || isFalsyStr resp.userProofData) = true →
      verifyPR p prLink (Except.ok resp) =
        Except.error ("zkTLS verification failed: " ++ "Invalid response format from zkTLS API")) ∧
    (∀ p prLink resp e, validatePRLink prLink ≠ none →
      (isFalsyStr resp.prProofData || isFalsyStr resp.userProofData) = false →
      extractAndVerifyProof p resp.serialized = Except.error e →
      verifyPR p prLink (Except.ok resp) =
        Except.error ("zkTLS verification failed: " ++ e)) ∧
    (∀ s env taskId t e, env.task = Except.ok t →
      verifyPR env.parse t.prLink env.api = Except.error e →
      hasSubmit (processTask s env taskId).2.2 = false ∧
      (processTask s env taskId).1 ≠ PTOutcome.completed) := by
  refine ⟨?_, ?_, ?_, ?_, ?_⟩
  · intro p prLink api h
    simp [verifyPR, h]
  · intro p prLink e h
    obtain ⟨x, hx⟩ := Option.ne_none_iff_exists.mp h
    simp [verifyPR, hx.symm]
  · intro p prLink resp h hf
    obtain ⟨x, hx⟩ := Option.ne_none_iff_exists.mp h
    simp [verifyPR, hx.symm, hf]
  · intro p prLink resp e h hf hx2
    obtain ⟨x, hx⟩ := Option.ne_none_iff_exists.mp h
    simp [verifyPR, hx.symm, hf, hx2]
  · intro s env taskId t e htask hv
    by_cases hmem : Nat.repr taskId ∈ s
    · simp [processTask, hmem, hasSubmit]
    · cases hc : env.claim with
      | error ce => simp [processTask, hmem, htask, hc, hasSubmit]
      | ok c => simp [processTask, hmem, htask, hc, hv, hasSubmit]

/-- C2 witness: a malformed link, a transport failure behind a valid link,
and a processing attempt whose proof-service call fails. -/
theorem verifyPR_fails_closed_witness :
    verifyPR (fun _ => none) "not a pr link" (Except.error "boom") =
      Except.error ("zkTLS verification failed: " ++ "Invalid GitHub PR link") ∧
    verifyPR (fun _ => none) task0.prLink (Except.error "boom") =
      Except.error ("zkTLS verification failed: " ++ "boom") ∧
    hasSubmit (processTask ∅ env0 1).2.2 = false :=
  ⟨(verifyPR_fails_closed).1 (fun _ => none) "not a pr link" (Except.error "boom") (by decide),
   (verifyPR_fails_closed).2.1 (fun _ => none) task0.prLink "boom" (by decide),
   ((verifyPR_fails_closed).2.2.2.2 ∅ env0 1 task0 ("zkTLS verification failed: " ++ "boom")
      rfl rfl).1⟩

/-- C3: the `processingTasks` guard makes a call on a held id a pure no-op,
restores the guard set on every exit path of a full attempt, never skips
when the id was free, equates skipping with a failed atomic enter, and
among `n` back-to-back concurrent attempts on a free id exactly one enter
succeeds, the id being held exactly for the span of that attempt. -/
theorem processTask_guard_invariant :
    (∀ s env taskId, Nat.repr taskId ∈ s →
      processTask s env taskId = (PTOutcome.skipped, s, [])) ∧
    (∀ s env taskId, Nat.repr taskId ∉ s → (processTask s env taskId).2.1 = s) ∧
    (∀ s env taskId, Nat.repr taskId ∉ s →
      (processTask s env taskId).1 ≠ PTOutcome.skipped ∧
      Act.readTask ∈ (processTask s env taskId).2.2) ∧
    (∀ s env taskId,
      (processTask s env taskId).1 = PTOutcome.skipped ↔
        (tryEnter s (Nat.repr taskId)).1 = false) ∧
    (∀ s id, id ∉ s →
      tryEnter s id = (true, insert id s) ∧ id ∈ insert id s ∧
      exitGuard (insert id s) id = s) ∧
    (∀ s id, id ∈ s → tryEnter s id = (false, s)) ∧
    (∀ s id n, id ∉ s → 1 ≤ n → enterRun s id n = 1) := by
  refine ⟨?_, ?_, ?_, ?_, ?_, ?_, ?_⟩
  · intro s env taskId h
    simp [processTask, h]
  · intro s env taskId h
    exact (processTask_not_mem s env taskId h).1
  · intro s env taskId h
    exact ⟨(processTask_not_mem s env taskId h).2.1, (processTask_not_mem s env taskId h).2.2⟩
  · intro s env taskId
    by_cases h : Nat.repr taskId ∈ s
    · simp [processTask, tryEnter, h]
    · simp [tryEnter, h, (processTask_not_mem s env taskId h).2.1]
  · intro s id h
    exact ⟨by simp [tryEnter, h], Finset.mem_insert_self id s, Finset.erase_insert h⟩
  · intro s id h
    simp [tryEnter, h]
  · intro s id n h hn
    cases n with
    | zero => omega
    | succ m => exact enterRun_succ_not_mem s id h m

/-- C3 witness: a free guard set, a concrete environment and three
concurrent attempts. -/
theorem processTask_guard_invariant_witness :
    (processTask ∅ env0 7).2.1 = ∅ ∧ enterRun ∅ "7" 3 = 1 :=
  ⟨(processTask_guard_invariant).2.1 ∅ env0 7 (by simp),
   (processTask_guard_invariant).2.2.2.2.2.2 ∅ "7" 3 (by simp) (by omega)⟩

/-- C5: a failed acquisition write whose message carries one of the known
conflict signatures is resolved inline: re-read showing assigned-to-self
yields `shouldProcess` true, assigned-to-other yields a no-op, a failing
re-read yields a no-op, and no exception escapes; any message carrying an
embedded signature is classified as a conflict; any other failure is
rethrown; and the conflict handler is exactly what `pickUpTask` returns when
the write on a Pending task fails. -/
theorem handlePickTaskError_conflict_resolution :
    (∀ me rr msg, isConflictMsg msg = true →
      (∀ t, rr = Except.ok t → handlePickTaskError me rr msg =
        Except.ok (if isAssignedToMe me t then ({ picked := false, shouldProcess := true } : PickResult)
          else { picked := false, shouldProcess := false })) ∧
      (∀ e, rr = Except.error e →
        handlePickTaskError me rr msg =
          Except.ok { picked := false, shouldProcess := false }) ∧
      (∃ r, handlePickTaskError me rr msg = Except.ok r)) ∧
    (∀ me rr msg, isConflictMsg msg = false →
      handlePickTaskError me rr msg = Except.error msg) ∧
    (∀ code, code ∈ ERROR_CODES_TASK_ALREADY_ASSIGNED →
      ∀ pre post, isConflictMsg (pre ++ code ++ post) = true) ∧
    (∀ me env t msg, env.task = Except.ok t → t.status = TASK_STATUS_PENDING →
      env.pickOutcome = Except.error msg →
      (pickUpTask me env).1 = handlePickTaskError me env.reRead msg) := by
  refine ⟨?_, ?_, ?_, ?_⟩
  · intro me rr msg hc
    refine ⟨?_, ?_, ?_⟩
    · intro t hrr
      rw [hrr]
      cases hAm : isAssignedToMe me t <;> simp [handlePickTaskError, hc, hAm]
    · intro e hrr
      rw [hrr]
      simp [handlePickTaskError, hc]
    · cases rr with
      | ok t =>
        cases hAm : isAssignedToMe me t with
        | true =>
          exact ⟨{ picked := false, shouldProcess := true },
            by simp [handlePickTaskError, hc, hAm]⟩
        | false =>
          exact ⟨{ picked := false, shouldProcess := false },
            by simp [handlePickTaskError, hc, hAm]⟩
      | error e =>
        exact ⟨{ picked := false, shouldProcess := false },
          by simp [handlePickTaskError, hc]⟩
  · intro me rr msg hc
    simp [handlePickTaskError, hc]
  · intro code hcode pre post
    unfold isConflictMsg
    rw [List.any_eq_true]
    exact ⟨code, hcode, strIncludes_of_embedded pre code post⟩
  · intro me env t msg htk hst hpk
    simp [pickUpTask, htk, hst, hpk]

/-- C5 witness: a conflict-signature message resolved through the re-read,
and a non-conflict message rethrown. -/
theorem handlePickTaskError_conflict_resolution_witness :
    handlePickTaskError "0xAB" (Except.ok taskMine) "execution reverted: TaskAlreadyAssigned" =
      Except.ok (if isAssignedToMe "0xAB" taskMine then ({ picked := false, shouldProcess := true } : PickResult)
        else { picked := false, shouldProcess := false }) ∧
    handlePickTaskError "0xAB" (Except.ok taskMine) "gas too low" =
      Except.error "gas too low" :=
  ⟨((handlePickTaskError_conflict_resolution).1 "0xAB" (Except.ok taskMine)
      "execution reverted: TaskAlreadyAssigned" (by decide)).1 taskMine rfl,
   (handlePickTaskError_conflict_resolution).2.1 "0xAB" (Except.ok taskMine)
      "gas too low" (by decide)⟩

/-- C6: on a non-Pending task, `pickUpTask` issues no acquisition write,
only the initial read, and returns `shouldProcess` true exactly when the
task is Assigned to this operator, a no-op result otherwise, so repeated
calls on a task already assigned to self are idempotent with respect to
oracle writes. -/
theorem pickUpTask_nonpending_no_write (me : String) (env : PickEnv) (t : Task)
    (h : env.task = Except.ok t) (hs : t.status ≠ TASK_STATUS_PENDING) :
    (pickUpTask me env).2 = [Act.readTask] ∧
    Act.pickWrite ∉ (pickUpTask me env).2 ∧
    (pickUpTask me env).1 = Except.ok (handleNonPendingTask me t) ∧
    (isAssignedToMe me t = true → t.status = TASK_STATUS_ASSIGNED →
      (pickUpTask me env).1 = Except.ok { picked := false, shouldProcess := true }) ∧
    (isAssignedToMe me t = false ∨ t.status ≠ TASK_STATUS_ASSIGNED →
      (pickUpTask me env).1 = Except.ok { picked := false, shouldProcess := false }) := by
  have hbne : (t.status != TASK_STATUS_PENDING) = true := by
    simp [bne_iff_ne, hs]
  have hmain : pickUpTask me env = (Except.ok (handleNonPendingTask me t), [Act.readTask]) := by
    simp [pickUpTask, h, hbne]
  refine ⟨by rw [hmain], by rw [hmain]; simp, by rw [hmain], ?_, ?_⟩
  · intro hAm hSt
    rw [hmain]
    simp [handleNonPendingTask, hAm, hSt]
  · intro hOr
    rw [hmain]
    rcases hOr with hAm | hSt
    · simp [handleNonPendingTask, hAm]
    · have hb : (t.status == TASK_STATUS_ASSIGNED) = false := by
        simp [hSt]
      simp [handleNonPendingTask, hb]

/-- C6 witness: a Validated task held by another operator. -/
theorem pickUpTask_nonpending_no_write_witness :
    (pickUpTask "0xme" pickEnvDone).2 = [Act.readTask] :=
  (pickUpTask_nonpending_no_write "0xme" pickEnvDone taskDone rfl (by decide)).1

/-- C8: `getTask` races the oracle read against a 10000 ms timer: a read
that does not settle strictly within the deadline yields the timeout error
rather than waiting, and a read settling first is returned unchanged. -/
theorem getTask_bounded_timeout :
    TIMEOUT_TASK_DETAILS = 10000 ∧
    (∀ read, resolvesWithin read = false →
      getTask read = Except.error "Timeout getting task details") ∧
    (∀ t v, t < TIMEOUT_TASK_DETAILS → getTask (some (t, v)) = Except.ok v) := by
  refine ⟨rfl, ?_, ?_⟩
  · intro read h
    cases read with
    | none => rfl
    | some tv =>
      obtain ⟨t, v⟩ := tv
      simp only [resolvesWithin, decide_eq_false_iff_not] at h
      simp [getTask, h]
  · intro t v h
    simp [getTask, h]

/-- C8 witness: a read that never settles, and one settling after 5 ms. -/
theorem getTask_bounded_timeout_witness :
    getTask none = Except.error "Timeout getting task details" ∧
    getTask (some (5, task0)) = Except.ok task0 :=
  ⟨(getTask_bounded_timeout).2.1 none rfl,
   (getTask_bounded_timeout).2.2 5 task0 (by decide)⟩

/-- C10: `isAssignedToMe` holds exactly when the assigned operator and this
operator agree after lower-casing, the `TaskAssigned` handler uses the very
same comparator, and two address strings with equal lower-casings are
interchangeable in every assigned-to-self check. -/
theorem address_compare_case_insensitive :
    (∀ me t, isAssignedToMe me t = true ↔ jsToLower t.assignedOperator = jsToLower me) ∧
    (∀ op me, taskAssignedMatches op me = true ↔ jsToLower op = jsToLower me) ∧
    (∀ me t, taskAssignedMatches t.assignedOperator me = isAssignedToMe me t) ∧
    (∀ a b, jsToLower a = jsToLower b → ∀ (me : String) (t : Task),
      isAssignedToMe me { t with assignedOperator := a } =
        isAssignedToMe me { t with assignedOperator := b }) ∧
    (∀ a b me, jsToLower a = jsToLower b →
      taskAssignedMatches a me = taskAssignedMatches b me) := by
  refine ⟨?_, ?_, ?_, ?_, ?_⟩
  · intro me t
    simp [isAssignedToMe]
  · intro op me
    simp [taskAssignedMatches]
  · intro me t
    rfl
  · intro a b hab me t
    simp [isAssignedToMe, hab]
  · intro a b me hab
    simp [taskAssignedMatches, hab]

/-- C10 witness: the same address in two letter cases. -/
theorem address_compare_case_insensitive_witness :
    isAssignedToMe "0xme" { task0 with assignedOperator := "0xAbCd" } =
      isAssignedToMe "0xme" { task0 with assignedOperator := "0xABCD" } :=
  (address_compare_case_insensitive).2.2.2.1 "0xAbCd" "0xABCD" (by decide) "0xme" task0

end ZkPull
